import Mathlib

/-!
# PayLog Attestation Registry — verification development

A shallow embedding of `src/smart-contract/src/lib.rs` (Concordium contract
"paylog") together with proofs of its specified properties.

Modelling conventions:
* `u128` amounts, `u64` millisecond timestamps, `u32` milestone ids and
  32-byte account addresses/hashes are modelled as `Nat` / `List Nat`;
  the contract only stores and compares these values, never does arithmetic
  on them, so no overflow wrapping is involved.
* A receive entrypoint body is translated as a pure function from the
  pre-state and the call context to an `Outcome`: `ok st' ev` (the body
  returned `Ok(())` after mutating the state to `st'` and logging `ev`),
  `err e st'` (the body returned `Err e`; `st'` is the host state as left
  by the body's in-place mutations, which matters for the `LogError` path
  where the milestone was already mutated before the log append failed),
  or `trap` (the body panicked, from the `expect` call in
  `confirm_payment`).
* The Concordium host commits the in-place state changes and the logged
  events only when the entrypoint returns `Ok`; on an `Err` return or a
  trap every state change is reverted and no event is kept.  `commit` /
  `step` model that envelope, so a full call is
  `step : State → List EventRecord → Call → State × List EventRecord`.
* Parameter deserialization (`ctx.parameter_cursor().get()?`) is modelled
  by an `Option` parameter: `none` is a byte string that fails to parse
  (yielding `ParseError` exactly where the Rust `?` fires).
* The logger can fail (`logger.log(...).map_err(|_| LogError)?`); the
  `logOk` flag of a call says whether the append would succeed.
-/

namespace PayLog

/-- Milestone identifiers are small integers for easy indexing (`u32`). -/
abbrev MilestoneId := Nat

/-- 32-byte SHA-256 work proof digest, as its list of bytes. -/
abbrev Hash32 := List Nat

/-- 32-byte transaction hash, as its list of bytes. -/
abbrev TxHash := List Nat

/-- A 32-byte Concordium account address, abstracted to an identifier. -/
abbrev AccountAddress := Nat

/-- Millisecond timestamp (`Timestamp` in concordium-std). -/
abbrev Timestamp := Nat

/-- `concordium_std::Address`: the sender of a message is either an
account or a contract instance. -/
inductive Address where
  | account (a : AccountAddress)
  | contract (c : Nat)
deriving DecidableEq

/-- Parameters passed at contract initialization time (`InitParams`). -/
structure InitParams where
  project_id : String
  client : AccountAddress
  freelancer : AccountAddress
  oracle : AccountAddress
  amounts : List Nat
  plt_decimals : Nat
deriving DecidableEq

/-- Per-milestone state persisted on-chain (`Milestone`). -/
structure Milestone where
  amount_minor : Nat
  requested : Bool
  released : Bool
  work_hash : Option Hash32
  plt_tx_hash : Option TxHash
  requested_at_ms : Option Timestamp
  attested_at_ms : Option Timestamp
deriving DecidableEq

/-- Contract storage, single-project instance (`State`). -/
structure State where
  project_id : String
  client : AccountAddress
  freelancer : AccountAddress
  oracle : AccountAddress
  plt_decimals : Nat
  milestones : List Milestone
deriving DecidableEq

/-- Emitted when the oracle requests release (`ReleaseRequestedEvent`). -/
structure ReleaseRequestedEvent where
  project_id : String
  milestone_id : MilestoneId
  work_hash : Hash32
  requested_at_ms : Timestamp
deriving DecidableEq

/-- Emitted when the client confirms payment (`AttestedEvent`). -/
structure AttestedEvent where
  project_id : String
  milestone_id : MilestoneId
  work_hash : Hash32
  plt_tx_hash : TxHash
  amount_minor : Nat
  block_time_ms : Timestamp
deriving DecidableEq

/-- Errors for receive entrypoints (`ContractError`). -/
inductive ContractError where
  | Unauthorized
  | InvalidMilestone
  | AlreadyRequested
  | NotRequested
  | AlreadyReleased
  | AmountMismatch
  | LogError
  | ParseError
deriving DecidableEq

/-- Result of running a receive entrypoint body: success with the new state
and the logged event, an error return together with the host state as the
body left it in place, or a panic (`trap`). -/
inductive Outcome (Ev : Type) where
  | ok (st : State) (ev : Ev)
  | err (e : ContractError) (st : State)
  | trap
deriving DecidableEq

/-- Params for `requestRelease` (`RequestParam`). -/
structure RequestParam where
  milestone_id : MilestoneId
  work_hash : Hash32
deriving DecidableEq

/-- Params for `confirmPayment` (`ConfirmParam`). -/
structure ConfirmParam where
  milestone_id : MilestoneId
  paid_amount_minor : Nat
  plt_tx_hash : TxHash
deriving DecidableEq

/-- Input for `viewMilestone` (`ViewParam`). -/
structure ViewParam where
  milestone_id : MilestoneId
deriving DecidableEq

/-- Return model for `viewMilestone` (`MilestoneView`). -/
structure MilestoneView where
  amount_minor : Nat
  requested : Bool
  released : Bool
  work_hash : Option Hash32
  plt_tx_hash : Option TxHash
  requested_at_ms : Option Timestamp
  attested_at_ms : Option Timestamp
deriving DecidableEq

/-- The milestone built by `init` for one amount: all fields except
`amount_minor` empty/false. -/
def mkMilestone (amt : Nat) : Milestone :=
  { amount_minor := amt
    requested := false
    released := false
    work_hash := none
    plt_tx_hash := none
    requested_at_ms := none
    attested_at_ms := none }

/-- `init`: parse the parameters (a `none` parameter is a byte string that
fails to deserialize), reject an empty amount list with `ParseError`, and
build the state.  The Rust `Reject` produced both by the `?` on the cursor
and by the `ensure!` is `Reject::from(ParseError)`, modelled as
`ContractError.ParseError`. -/
def init (param : Option InitParams) : Except ContractError State :=
  match param with
  | none => Except.error ContractError.ParseError
  | some p =>
    if p.amounts.isEmpty then Except.error ContractError.ParseError
    else
      Except.ok
        { project_id := p.project_id
          client := p.client
          freelancer := p.freelancer
          oracle := p.oracle
          plt_decimals := p.plt_decimals
          milestones := p.amounts.map mkMilestone }

/-- The in-place mutation `request_release` performs on the milestone:
`ms.requested = true; ms.work_hash = Some(..); ms.requested_at_ms = Some(..)`. -/
def applyRequest (ms : Milestone) (h : Hash32) (now : Timestamp) : Milestone :=
  { ms with requested := true, work_hash := some h, requested_at_ms := some now }

/-- The in-place mutation `confirm_payment` performs on the milestone:
`ms.released = true; ms.plt_tx_hash = Some(..); ms.attested_at_ms = Some(..)`. -/
def applyConfirm (ms : Milestone) (tx : TxHash) (now : Timestamp) : Milestone :=
  { ms with released := true, plt_tx_hash := some tx, attested_at_ms := some now }

/-- Body of the `requestRelease` entrypoint (`fn request_release`),
translated check by check from the Rust source:
sender must be an account and equal the oracle, then the parameter is
parsed, the milestone looked up, `released` then `requested` are rejected,
the milestone is mutated in place, and finally the event is logged (a
failed append yields `LogError` with the mutation already applied). -/
def request_release (st : State) (sender : Address) (param : Option RequestParam)
    (now : Timestamp) (logOk : Bool) : Outcome ReleaseRequestedEvent :=
  match sender with
  | Address.contract _ => Outcome.err ContractError.Unauthorized st
  | Address.account s =>
    if s = st.oracle then
      match param with
      | none => Outcome.err ContractError.ParseError st
      | some p =>
        match st.milestones.get? p.milestone_id with
        | none => Outcome.err ContractError.InvalidMilestone st
        | some ms =>
          if ms.released = true then Outcome.err ContractError.AlreadyReleased st
          else if ms.requested = true then Outcome.err ContractError.AlreadyRequested st
          else
            let st' := { st with
              milestones := st.milestones.set p.milestone_id (applyRequest ms p.work_hash now) }
            let ev : ReleaseRequestedEvent :=
              { project_id := st'.project_id
                milestone_id := p.milestone_id
                work_hash := p.work_hash
                requested_at_ms := now }
            if logOk then Outcome.ok st' ev else Outcome.err ContractError.LogError st'
    else Outcome.err ContractError.Unauthorized st

/-- Body of the `confirmPayment` entrypoint (`fn confirm_payment`),
translated check by check from the Rust source: sender must be an account
and equal the client, the parameter is parsed, the milestone looked up,
`requested` is required, `released` rejected, the paid amount compared,
then `ms.work_hash.expect(..)` — a panic (`trap`) when absent — the
in-place mutation, and the log append. -/
def confirm_payment (st : State) (sender : Address) (param : Option ConfirmParam)
    (now : Timestamp) (logOk : Bool) : Outcome AttestedEvent :=
  match sender with
  | Address.contract _ => Outcome.err ContractError.Unauthorized st
  | Address.account s =>
    if s = st.client then
      match param with
      | none => Outcome.err ContractError.ParseError st
      | some p =>
        match st.milestones.get? p.milestone_id with
        | none => Outcome.err ContractError.InvalidMilestone st
        | some ms =>
          if ms.requested = true then
            if ms.released = true then Outcome.err ContractError.AlreadyReleased st
            else if p.paid_amount_minor = ms.amount_minor then
              match ms.work_hash with
              | none => Outcome.trap
              | some wh =>
                let st' := { st with
                  milestones := st.milestones.set p.milestone_id (applyConfirm ms p.plt_tx_hash now) }
                let ev : AttestedEvent :=
                  { project_id := st.project_id
                    milestone_id := p.milestone_id
                    work_hash := wh
                    plt_tx_hash := p.plt_tx_hash
                    amount_minor := ms.amount_minor
                    block_time_ms := now }
                if logOk then Outcome.ok st' ev else Outcome.err ContractError.LogError st'
            else Outcome.err ContractError.AmountMismatch st
          else Outcome.err ContractError.NotRequested st
    else Outcome.err ContractError.Unauthorized st

/-- `viewMilestone` (`fn view_milestone`): parse the id, return the
snapshot of the milestone, or `none` when the id is out of range.  The
entrypoint is read-only (`&Host<State>`) and performs no sender check. -/
def view_milestone (st : State) (param : Option ViewParam) :
    Except ContractError (Option MilestoneView) :=
  match param with
  | none => Except.error ContractError.ParseError
  | some p =>
    Except.ok ((st.milestones.get? p.milestone_id).map (fun m =>
      { amount_minor := m.amount_minor
        requested := m.requested
        released := m.released
        work_hash := m.work_hash
        plt_tx_hash := m.plt_tx_hash
        requested_at_ms := m.requested_at_ms
        attested_at_ms := m.attested_at_ms }))

/-- An external state-changing call: sender, raw parameter (`none` =
undeserializable bytes), block time, and whether the event log append
would succeed. -/
inductive Call where
  | requestRelease (sender : Address) (param : Option RequestParam)
      (now : Timestamp) (logOk : Bool)
  | confirmPayment (sender : Address) (param : Option ConfirmParam)
      (now : Timestamp) (logOk : Bool)
deriving DecidableEq

/-- One entry of the chain's event log. -/
inductive EventRecord where
  | releaseRequested (ev : ReleaseRequestedEvent)
  | attested (ev : AttestedEvent)
deriving DecidableEq

/-- The host's commit rule: state changes and logged events are kept only
when the entrypoint returns `Ok`; an `Err` return or a trap reverts every
in-place change and drops the event. -/
def commit {Ev : Type} (st : State) (log : List EventRecord)
    (o : Outcome Ev) (inj : Ev → EventRecord) : State × List EventRecord :=
  match o with
  | Outcome.ok st' ev => (st', log ++ [inj ev])
  | Outcome.err _ _ => (st, log)
  | Outcome.trap => (st, log)

/-- Run one full call against the registry: execute the entrypoint body and
apply the host commit rule. -/
def step (st : State) (log : List EventRecord) (c : Call) : State × List EventRecord :=
  match c with
  | Call.requestRelease sender param now logOk =>
    commit st log (request_release st sender param now logOk) EventRecord.releaseRequested
  | Call.confirmPayment sender param now logOk =>
    commit st log (confirm_payment st sender param now logOk) EventRecord.attested

/-- The state after one full call (ignoring the event log). -/
def stepState (st : State) (c : Call) : State :=
  (step st [] c).1

/-- The error code of an outcome, if the body returned one. -/
def errorOf {Ev : Type} (o : Outcome Ev) : Option ContractError :=
  match o with
  | Outcome.err e _ => some e
  | _ => none

/-- The error a call returns, if any. -/
def callError (st : State) (c : Call) : Option ContractError :=
  match c with
  | Call.requestRelease sender param now logOk =>
    errorOf (request_release st sender param now logOk)
  | Call.confirmPayment sender param now logOk =>
    errorOf (confirm_payment st sender param now logOk)

/-- The block time a call runs at. -/
def timeOf : Call → Timestamp
  | Call.requestRelease _ _ now _ => now
  | Call.confirmPayment _ _ now _ => now

/-- States reachable from a successful `init` by any sequence of
`requestRelease` / `confirmPayment` calls, successful or failing. -/
inductive Reachable : State → Prop where
  | base (p : Option InitParams) (st : State) :
      init p = Except.ok st → Reachable st
  | next (st : State) (c : Call) :
      Reachable st → Reachable (stepState st c)

/-- States reachable from a successful `init` by calls whose block times
are monotonically non-decreasing; the `Timestamp` index bounds every block
time used so far. -/
inductive ReachableT : State → Timestamp → Prop where
  | base (p : Option InitParams) (st : State) :
      init p = Except.ok st → ReachableT st 0
  | next (st : State) (t : Timestamp) (c : Call) :
      ReachableT st t → t ≤ timeOf c → ReachableT (stepState st c) (timeOf c)

/-! ## List helpers -/

theorem list_get_set_self {α : Type} (l : List α) (i : Nat) (a : α)
    (h : i < l.length) : (l.set i a).get? i = some a := by
  induction l generalizing i with
  | nil => simp at h
  | cons x xs ih =>
    cases i with
    | zero => rfl
    | succ n => exact ih n (Nat.lt_of_succ_lt_succ h)

theorem list_get_set_other {α : Type} (l : List α) (i j : Nat) (a : α)
    (h : i ≠ j) : (l.set i a).get? j = l.get? j := by
  induction l generalizing i j with
  | nil => rfl
  | cons x xs ih =>
    cases i with
    | zero =>
      cases j with
      | zero => exact absurd rfl h
      | succ m => rfl
    | succ n =>
      cases j with
      | zero => rfl
      | succ m => exact ih n m (fun hh => h (by rw [hh]))

theorem list_mem_set {α : Type} (l : List α) (i : Nat) (a b : α)
    (h : b ∈ l.set i a) : b ∈ l ∨ b = a := by
  induction l generalizing i with
  | nil => simp [List.set] at h
  | cons x xs ih =>
    cases i with
    | zero =>
      rcases List.mem_cons.mp h with h1 | h1
      · exact Or.inr h1
      · exact Or.inl (List.mem_cons_of_mem _ h1)
    | succ n =>
      rcases List.mem_cons.mp h with h1 | h1
      · exact Or.inl (h1 ▸ List.mem_cons_self x xs)
      · rcases ih n h1 with h2 | h2
        · exact Or.inl (List.mem_cons_of_mem _ h2)
        · exact Or.inr h2

theorem list_get_mem {α : Type} (l : List α) (i : Nat) (a : α)
    (h : l.get? i = some a) : a ∈ l := by
  induction l generalizing i with
  | nil => simp [List.get?] at h
  | cons x xs ih =>
    cases i with
    | zero =>
      injection h with h1
      subst h1
      exact List.mem_cons_self x xs
    | succ n => exact List.mem_cons_of_mem _ (ih n h)

theorem list_get_lt_length {α : Type} (l : List α) (i : Nat) (a : α)
    (h : l.get? i = some a) : i < l.length := by
  induction l generalizing i with
  | nil => simp [List.get?] at h
  | cons x xs ih =>
    cases i with
    | zero => exact Nat.succ_pos _
    | succ n => exact Nat.succ_lt_succ (ih n h)

/-! ## Inversion and case lemmas for the entrypoint bodies -/

/-- Inversion of a successful `requestRelease`: every check passed and the
new state and event have exactly the computed shape. -/
theorem request_release_ok (st : State) (sender : Address) (param : Option RequestParam)
    (now : Timestamp) (logOk : Bool) (st' : State) (ev : ReleaseRequestedEvent)
    (h : request_release st sender param now logOk = Outcome.ok st' ev) :
    ∃ a p ms, sender = Address.account a ∧ a = st.oracle ∧ param = some p ∧
      st.milestones.get? p.milestone_id = some ms ∧ ms.released = false ∧
      ms.requested = false ∧ logOk = true ∧
      st' = { st with milestones :=
        st.milestones.set p.milestone_id (applyRequest ms p.work_hash now) } ∧
      ev = { project_id := st.project_id, milestone_id := p.milestone_id,
             work_hash := p.work_hash, requested_at_ms := now } := by
  cases sender with
  | contract c => simp [request_release] at h
  | account a =>
    simp only [request_release] at h
    by_cases ha : a = st.oracle
    · rw [if_pos ha] at h
      cases param with
      | none => exact absurd h (by simp)
      | some p =>
        cases hms : st.milestones.get? p.milestone_id with
        | none => simp only [hms] at h; exact absurd h (by simp)
        | some ms =>
          simp only [hms] at h
          by_cases hr : ms.released = true
          · rw [if_pos hr] at h; exact absurd h (by simp)
          · rw [if_neg hr] at h
            by_cases hq : ms.requested = true
            · rw [if_pos hq] at h; exact absurd h (by simp)
            · rw [if_neg hq] at h
              cases logOk with
              | false => exact absurd h (by simp)
              | true =>
                rw [if_pos rfl] at h
                refine ⟨a, p, ms, rfl, ha, rfl, hms,
                  Bool.eq_false_iff.mpr (fun hh => hr (by rw [hh])),
                  Bool.eq_false_iff.mpr (fun hh => hq (by rw [hh])), rfl, ?_, ?_⟩
                · exact (Outcome.ok.inj h).1.symm
                · exact (Outcome.ok.inj h).2.symm
    · rw [if_neg ha] at h; exact absurd h (by simp)

/-- Inversion of a successful `confirmPayment`. -/
theorem confirm_payment_ok (st : State) (sender : Address) (param : Option ConfirmParam)
    (now : Timestamp) (logOk : Bool) (st' : State) (ev : AttestedEvent)
    (h : confirm_payment st sender param now logOk = Outcome.ok st' ev) :
    ∃ a p ms wh, sender = Address.account a ∧ a = st.client ∧ param = some p ∧
      st.milestones.get? p.milestone_id = some ms ∧ ms.requested = true ∧
      ms.released = false ∧ p.paid_amount_minor = ms.amount_minor ∧
      ms.work_hash = some wh ∧ logOk = true ∧
      st' = { st with milestones :=
        st.milestones.set p.milestone_id (applyConfirm ms p.plt_tx_hash now) } ∧
      ev = { project_id := st.project_id, milestone_id := p.milestone_id,
             work_hash := wh, plt_tx_hash := p.plt_tx_hash,
             amount_minor := ms.amount_minor, block_time_ms := now } := by
  cases sender with
  | contract c => simp [confirm_payment] at h
  | account a =>
    simp only [confirm_payment] at h
    by_cases ha : a = st.client
    · rw [if_pos ha] at h
      cases param with
      | none => exact absurd h (by simp)
      | some p =>
        cases hms : st.milestones.get? p.milestone_id with
        | none => simp only [hms] at h; exact absurd h (by simp)
        | some ms =>
          simp only [hms] at h
          by_cases hq : ms.requested = true
          · rw [if_pos hq] at h
            by_cases hr : ms.released = true
            · rw [if_pos hr] at h; exact absurd h (by simp)
            · rw [if_neg hr] at h
              by_cases hamt : p.paid_amount_minor = ms.amount_minor
              · rw [if_pos hamt] at h
                cases hwh : ms.work_hash with
                | none => simp only [hwh] at h; exact absurd h (by simp)
                | some wh =>
                  simp only [hwh] at h
                  cases logOk with
                  | false => exact absurd h (by simp)
                  | true =>
                    rw [if_pos rfl] at h
                    refine ⟨a, p, ms, wh, rfl, ha, rfl, hms, hq,
                      Bool.eq_false_iff.mpr (fun hh => hr (by rw [hh])),
                      hamt, hwh, rfl, ?_, ?_⟩
                    · exact (Outcome.ok.inj h).1.symm
                    · exact (Outcome.ok.inj h).2.symm
              · rw [if_neg hamt] at h; exact absurd h (by simp)
          · rw [if_neg hq] at h; exact absurd h (by simp)
    · rw [if_neg ha] at h; exact absurd h (by simp)

/-- Every full call either leaves the committed state unchanged (error or
trap), or commits exactly one milestone update of `applyRequest` shape (a
successful `requestRelease` on a not-requested, not-released milestone) or
of `applyConfirm` shape (a successful `confirmPayment` on a requested,
not-released milestone), stamped with the call's block time. -/
theorem stepState_cases (st : State) (c : Call) :
    stepState st c = st ∨
    (∃ i h ms, st.milestones.get? i = some ms ∧ ms.released = false ∧
      ms.requested = false ∧
      stepState st c = { st with
        milestones := st.milestones.set i (applyRequest ms h (timeOf c)) }) ∨
    (∃ i tx ms, st.milestones.get? i = some ms ∧ ms.requested = true ∧
      ms.released = false ∧
      stepState st c = { st with
        milestones := st.milestones.set i (applyConfirm ms tx (timeOf c)) }) := by
  cases c with
  | requestRelease sender param now logOk =>
    cases ho : request_release st sender param now logOk with
    | ok st' ev =>
      rcases request_release_ok st sender param now logOk st' ev ho with
        ⟨a, p, ms, _, _, _, hms, hrel, hreq, _, hst', _⟩
      refine Or.inr (Or.inl ⟨p.milestone_id, p.work_hash, ms, hms, hrel, hreq, ?_⟩)
      simp only [stepState, step, ho, commit]
      exact hst'
    | err e st0 => exact Or.inl (by simp only [stepState, step, ho, commit])
    | trap => exact Or.inl (by simp only [stepState, step, ho, commit])
  | confirmPayment sender param now logOk =>
    cases ho : confirm_payment st sender param now logOk with
    | ok st' ev =>
      rcases confirm_payment_ok st sender param now logOk st' ev ho with
        ⟨a, p, ms, wh, _, _, _, hms, hreq, hrel, _, _, _, hst', _⟩
      refine Or.inr (Or.inr ⟨p.milestone_id, p.plt_tx_hash, ms, hms, hreq, hrel, ?_⟩)
      simp only [stepState, step, ho, commit]
      exact hst'
    | err e st0 => exact Or.inl (by simp only [stepState, step, ho, commit])
    | trap => exact Or.inl (by simp only [stepState, step, ho, commit])

/-! ## Invariants of reachable states -/

/-- Per-state invariant: every milestone satisfies `released ⇒ requested`
and `requested ⇒ work_hash present ∧ requested_at present`. -/
def Inv2 (st : State) : Prop :=
  ∀ m ∈ st.milestones,
    (m.released = true → m.requested = true) ∧
    (m.requested = true → m.work_hash.isSome = true ∧ m.requested_at_ms.isSome = true)

/-- Timed per-state invariant, `t` bounding every block time used so far:
a requested milestone has a requested-at timestamp at most `t`, and a
released milestone has a payment reference and timestamps in order. -/
def InvT (st : State) (t : Timestamp) : Prop :=
  ∀ m ∈ st.milestones,
    (m.requested = true → ∃ r, m.requested_at_ms = some r ∧ r ≤ t) ∧
    (m.released = true → m.plt_tx_hash.isSome = true ∧
      ∃ r a, m.requested_at_ms = some r ∧ m.attested_at_ms = some a ∧ r ≤ a)

theorem inv2_of_init (p : Option InitParams) (st : State)
    (h : init p = Except.ok st) : Inv2 st := by
  cases p with
  | none => simp [init] at h
  | some q =>
    by_cases he : q.amounts.isEmpty
    · simp [init, he] at h
    · simp only [init, he, if_neg, Bool.false_eq_true, not_false_eq_true] at h
      intro m hm
      rw [← (Except.ok.inj h)] at hm
      rcases List.mem_map.mp hm with ⟨amt, _, hamt⟩
      rw [← hamt]
      exact ⟨fun hh => by simp [mkMilestone] at hh,
             fun hh => by simp [mkMilestone] at hh⟩

theorem invT_of_init (p : Option InitParams) (st : State)
    (h : init p = Except.ok st) : InvT st 0 := by
  cases p with
  | none => simp [init] at h
  | some q =>
    by_cases he : q.amounts.isEmpty
    · simp [init, he] at h
    · simp only [init, he, if_neg, Bool.false_eq_true, not_false_eq_true] at h
      intro m hm
      rw [← (Except.ok.inj h)] at hm
      rcases List.mem_map.mp hm with ⟨amt, _, hamt⟩
      rw [← hamt]
      exact ⟨fun hh => by simp [mkMilestone] at hh,
             fun hh => by simp [mkMilestone] at hh⟩

theorem inv2_step (st : State) (c : Call) (h : Inv2 st) : Inv2 (stepState st c) := by
  rcases stepState_cases st c with hc | ⟨i, wh, ms, hms, hrel, hreq, hc⟩ |
    ⟨i, tx, ms, hms, hreq, hrel, hc⟩
  · rw [hc]; exact h
  · rw [hc]
    intro m hm
    rcases list_mem_set _ _ _ _ hm with hold | hnew
    · exact h m hold
    · rw [hnew]
      refine ⟨fun hh => ?_, fun _ => ?_⟩
      · exact absurd hh (by simp [applyRequest, hrel])
      · simp [applyRequest]
  · rw [hc]
    intro m hm
    rcases list_mem_set _ _ _ _ hm with hold | hnew
    · exact h m hold
    · rw [hnew]
      have hmem : ms ∈ st.milestones := list_get_mem _ _ _ hms
      refine ⟨fun _ => ?_, fun _ => ?_⟩
      · simpa [applyConfirm] using hreq
      · have := (h ms hmem).2 hreq
        simpa [applyConfirm] using this

theorem invT_mono (st : State) (t t' : Timestamp) (h : InvT st t) (ht : t ≤ t') :
    InvT st t' := by
  intro m hm
  refine ⟨fun hq => ?_, (h m hm).2⟩
  rcases (h m hm).1 hq with ⟨r, hr, hrt⟩
  exact ⟨r, hr, Nat.le_trans hrt ht⟩

theorem invT_step (st : State) (t : Timestamp) (c : Call)
    (h : InvT st t) (ht : t ≤ timeOf c) : InvT (stepState st c) (timeOf c) := by
  rcases stepState_cases st c with hc | ⟨i, wh, ms, hms, hrel, hreq, hc⟩ |
    ⟨i, tx, ms, hms, hreq, hrel, hc⟩
  · rw [hc]; exact invT_mono st t (timeOf c) h ht
  · rw [hc]
    intro m hm
    rcases list_mem_set _ _ _ _ hm with hold | hnew
    · exact invT_mono st t (timeOf c) h ht m hold
    · rw [hnew]
      refine ⟨fun _ => ?_, fun hh => ?_⟩
      · exact ⟨timeOf c, by simp [applyRequest], Nat.le_refl _⟩
      · exact absurd hh (by simp [applyRequest, hrel])
  · rw [hc]
    intro m hm
    rcases list_mem_set _ _ _ _ hm with hold | hnew
    · exact invT_mono st t (timeOf c) h ht m hold
    · rw [hnew]
      have hmem : ms ∈ st.milestones := list_get_mem _ _ _ hms
      rcases (h ms hmem).1 hreq with ⟨r, hr, hrt⟩
      refine ⟨fun _ => ?_, fun _ => ?_⟩
      · exact ⟨r, by simpa [applyConfirm] using hr, Nat.le_trans hrt ht⟩
      · refine ⟨by simp [applyConfirm], r, timeOf c, by simpa [applyConfirm] using hr,
          by simp [applyConfirm], Nat.le_trans hrt ht⟩

theorem reachable_inv2 (st : State) (h : Reachable st) : Inv2 st := by
  induction h with
  | base p st hp => exact inv2_of_init p st hp
  | next st c _ ih => exact inv2_step st c ih

theorem reachableT_invT (st : State) (t : Timestamp) (h : ReachableT st t) :
    InvT st t := by
  induction h with
  | base p st hp => exact invT_of_init p st hp
  | next st t c _ ht ih => exact invT_step st t c ih ht

/-! ## Small boolean and list auxiliaries -/

theorem bool_ne_true {b : Bool} (h : b = false) : ¬(b = true) := by
  intro hh
  rw [h] at hh
  exact Bool.noConfusion hh

theorem list_get_none {α : Type} (l : List α) (i : Nat) (h : l.length ≤ i) :
    l.get? i = none := by
  induction l generalizing i with
  | nil => rfl
  | cons x xs ih =>
    cases i with
    | zero => simp at h
    | succ n => exact ih n (Nat.le_of_succ_le_succ h)

/-! ## Concrete values used by the witnesses -/

/-- Initialization parameters of the worked example (spec scenario A). -/
def demoParams : InitParams :=
  { project_id := "wlog-local"
    client := 1
    freelancer := 2
    oracle := 3
    amounts := [100000000, 200000000]
    plt_decimals := 6 }

/-- The registry right after `init demoParams`. -/
def demoState : State :=
  { project_id := "wlog-local"
    client := 1
    freelancer := 2
    oracle := 3
    plt_decimals := 6
    milestones := [mkMilestone 100000000, mkMilestone 200000000] }

/-- A sample work digest. -/
def demoHash : Hash32 := [17]

/-- A sample payment transaction hash. -/
def demoTx : TxHash := [42]

/-- Parameter of the sample `requestRelease` call. -/
def demoRequestParam : RequestParam := { milestone_id := 0, work_hash := demoHash }

/-- Parameter of the sample `confirmPayment` call. -/
def demoConfirmParam : ConfirmParam :=
  { milestone_id := 0, paid_amount_minor := 100000000, plt_tx_hash := demoTx }

/-- The oracle requests release of milestone 0 at time 10. -/
def demoCallR : Call :=
  Call.requestRelease (Address.account 3) (some demoRequestParam) 10 true

/-- The client confirms payment of milestone 0 at time 20. -/
def demoCallC : Call :=
  Call.confirmPayment (Address.account 1) (some demoConfirmParam) 20 true

/-- State after the sample `requestRelease` (spec scenario B). -/
def demoRequestedState : State := stepState demoState demoCallR

/-- State after the sample `confirmPayment` (spec scenario D). -/
def demoReleasedState : State := stepState demoRequestedState demoCallC

/-- Milestone 0 of `demoRequestedState`. -/
def demoRequestedMs : Milestone :=
  { amount_minor := 100000000
    requested := true
    released := false
    work_hash := some demoHash
    plt_tx_hash := none
    requested_at_ms := some 10
    attested_at_ms := none }

/-- Milestone 0 of `demoReleasedState`. -/
def demoReleasedMs : Milestone :=
  { amount_minor := 100000000
    requested := true
    released := true
    work_hash := some demoHash
    plt_tx_hash := some demoTx
    requested_at_ms := some 10
    attested_at_ms := some 20 }

/-- The event of the sample `requestRelease`. -/
def demoReleaseEvent : ReleaseRequestedEvent :=
  { project_id := "wlog-local", milestone_id := 0, work_hash := demoHash,
    requested_at_ms := 10 }

/-- The event of the sample `confirmPayment`. -/
def demoAttestedEvent : AttestedEvent :=
  { project_id := "wlog-local", milestone_id := 0, work_hash := demoHash,
    plt_tx_hash := demoTx, amount_minor := 100000000, block_time_ms := 20 }

/-- A sample `requestRelease` whose event append fails. -/
def demoLogFailCall : Call :=
  Call.requestRelease (Address.account 3) (some demoRequestParam) 10 false

/-! ## Claims -/

/-- C1: every `requestRelease` or `confirmPayment` call that returns an
error — including `LogError`, where the body had already mutated the
milestone fields before the failing event append — commits nothing: the
registry state after the call is identical to the state before and no
event is appended, so the mutation and the event emission happen both or
neither. -/
theorem c1_error_atomicity (st : State) (log : List EventRecord) (c : Call)
    (e : ContractError) (h : callError st c = some e) :
    step st log c = (st, log) := by
  cases c with
  | requestRelease sender param now logOk =>
    simp only [callError] at h
    cases ho : request_release st sender param now logOk with
    | ok st' ev => rw [ho] at h; simp [errorOf] at h
    | err e0 st0 => simp only [step, ho, commit]
    | trap => rw [ho] at h; simp [errorOf] at h
  | confirmPayment sender param now logOk =>
    simp only [callError] at h
    cases ho : confirm_payment st sender param now logOk with
    | ok st' ev => rw [ho] at h; simp [errorOf] at h
    | err e0 st0 => simp only [step, ho, commit]
    | trap => rw [ho] at h; simp [errorOf] at h

/-- Witness for C1: a concrete `requestRelease` that passes every check
but whose event append fails returns `LogError` and commits neither the
state change nor the event. -/
theorem c1_error_atomicity_witness :
    callError demoState demoLogFailCall = some ContractError.LogError ∧
    step demoState [] demoLogFailCall = (demoState, []) :=
  ⟨by decide,
   c1_error_atomicity demoState [] demoLogFailCall ContractError.LogError (by decide)⟩

/-- C2: in every state reachable from a successful `init` by any sequence
of `requestRelease` / `confirmPayment` calls (successful or failing),
every milestone satisfies `released ⇒ requested` and
`requested ⇒ work_hash present ∧ requested_at present`. -/
theorem c2_state_machine_invariants (st : State) (m : Milestone)
    (h : Reachable st) (hm : m ∈ st.milestones) :
    (m.released = true → m.requested = true) ∧
    (m.requested = true → m.work_hash.isSome = true ∧
      m.requested_at_ms.isSome = true) :=
  reachable_inv2 st h m hm

/-- Witness for C2 at the fully released milestone of the worked
example's final state, reached by an actual `init`, `requestRelease`,
`confirmPayment` trace. -/
theorem c2_state_machine_invariants_witness :
    demoReleasedMs ∈ demoReleasedState.milestones ∧
    ((demoReleasedMs.released = true → demoReleasedMs.requested = true) ∧
     (demoReleasedMs.requested = true → demoReleasedMs.work_hash.isSome = true ∧
       demoReleasedMs.requested_at_ms.isSome = true)) :=
  ⟨by decide,
   c2_state_machine_invariants demoReleasedState demoReleasedMs
     (Reachable.next demoRequestedState demoCallC
       (Reachable.next demoState demoCallR
         (Reachable.base (some demoParams) demoState rfl)))
     (by decide)⟩

/-- A type-correct but unreachable state whose milestone 0 violates
invariant 2: `requested` is set but no work hash is stored. -/
def brokenState : State :=
  { project_id := "wlog-local"
    client := 1
    freelancer := 2
    oracle := 3
    plt_decimals := 6
    milestones := [{ amount_minor := 100000000
                     requested := true
                     released := false
                     work_hash := none
                     plt_tx_hash := none
                     requested_at_ms := some 5
                     attested_at_ms := none }] }

/-- C3 counterexample: at a requested milestone with no stored work hash,
`confirm_payment` hits the Rust `expect` and panics — the outcome is a
trap, not an error return of any kind, so the operation does not surface
a distinct internal-error kind. -/
theorem c3_counterexample :
    confirm_payment brokenState (Address.account 1) (some demoConfirmParam) 9 true =
      Outcome.trap := by decide

/-- C3 (amended): under invariant 2 as a hypothesis on the state — every
requested milestone has a stored work hash — the branch of
`confirm_payment` that reads the work hash after the `requested` check can
never fail: the operation never traps. -/
theorem c3_no_trap_under_invariant (st : State) (sender : Address)
    (param : Option ConfirmParam) (now : Timestamp) (logOk : Bool)
    (hinv : ∀ m ∈ st.milestones, m.requested = true → m.work_hash.isSome = true) :
    confirm_payment st sender param now logOk ≠ Outcome.trap := by
  intro h
  cases sender with
  | contract c => simp [confirm_payment] at h
  | account a =>
    simp only [confirm_payment] at h
    by_cases ha : a = st.client
    · rw [if_pos ha] at h
      cases param with
      | none => exact absurd h (by simp)
      | some p =>
        cases hms : st.milestones.get? p.milestone_id with
        | none => simp only [hms] at h; exact absurd h (by simp)
        | some ms =>
          simp only [hms] at h
          by_cases hq : ms.requested = true
          · rw [if_pos hq] at h
            by_cases hr : ms.released = true
            · rw [if_pos hr] at h; exact absurd h (by simp)
            · rw [if_neg hr] at h
              by_cases hamt : p.paid_amount_minor = ms.amount_minor
              · rw [if_pos hamt] at h
                have hsome := hinv ms (list_get_mem _ _ _ hms) hq
                cases hwh : ms.work_hash with
                | none => rw [hwh] at hsome; exact absurd hsome (by simp)
                | some wh =>
                  simp only [hwh] at h
                  cases logOk with
                  | true => rw [if_pos rfl] at h; exact absurd h (by simp)
                  | false => exact absurd h (by simp)
              · rw [if_neg hamt] at h; exact absurd h (by simp)
          · rw [if_neg hq] at h; exact absurd h (by simp)
    · rw [if_neg ha] at h; exact absurd h (by simp)

/-- Witness for the amended C3 at a concrete state satisfying the
invariant. -/
theorem c3_no_trap_under_invariant_witness :
    (∀ m ∈ demoRequestedState.milestones,
       m.requested = true → m.work_hash.isSome = true) ∧
    confirm_payment demoRequestedState (Address.account 1)
      (some demoConfirmParam) 20 true ≠ Outcome.trap :=
  ⟨by decide,
   c3_no_trap_under_invariant demoRequestedState (Address.account 1)
     (some demoConfirmParam) 20 true (by decide)⟩

/-- C4: a `requestRelease` whose sender is not the oracle's account —
any other account, or any contract sender — returns `Unauthorized` with
the state untouched and no event, regardless of the parameter (even an
undeserializable one, so `Unauthorized` takes precedence over
`ParseError` and `InvalidMilestone`); symmetrically for `confirmPayment`
and the client's account. -/
theorem c4_unauthorized_first :
    (∀ st sender param now logOk log,
      sender ≠ Address.account st.oracle →
      request_release st sender param now logOk =
        Outcome.err ContractError.Unauthorized st ∧
      step st log (Call.requestRelease sender param now logOk) = (st, log)) ∧
    (∀ st sender param now logOk log,
      sender ≠ Address.account st.client →
      confirm_payment st sender param now logOk =
        Outcome.err ContractError.Unauthorized st ∧
      step st log (Call.confirmPayment sender param now logOk) = (st, log)) := by
  constructor
  · intro st sender param now logOk log hs
    have hb : request_release st sender param now logOk =
        Outcome.err ContractError.Unauthorized st := by
      cases sender with
      | contract c => rfl
      | account a =>
        simp only [request_release]
        rw [if_neg (fun ha => hs (by rw [ha]))]
    exact ⟨hb, by simp only [step, hb, commit]⟩
  · intro st sender param now logOk log hs
    have hb : confirm_payment st sender param now logOk =
        Outcome.err ContractError.Unauthorized st := by
      cases sender with
      | contract c => rfl
      | account a =>
        simp only [confirm_payment]
        rw [if_neg (fun ha => hs (by rw [ha]))]
    exact ⟨hb, by simp only [step, hb, commit]⟩

/-- Witness for C4: the freelancer's account calling `requestRelease`
with an undeserializable parameter, and a contract calling
`confirmPayment`, both get `Unauthorized` and change nothing. -/
theorem c4_unauthorized_first_witness :
    (Address.account 2 ≠ Address.account demoState.oracle ∧
      request_release demoState (Address.account 2) none 10 true =
        Outcome.err ContractError.Unauthorized demoState ∧
      step demoState [] (Call.requestRelease (Address.account 2) none 10 true) =
        (demoState, [])) ∧
    (Address.contract 7 ≠ Address.account demoState.client ∧
      confirm_payment demoState (Address.contract 7) none 10 true =
        Outcome.err ContractError.Unauthorized demoState ∧
      step demoState [] (Call.confirmPayment (Address.contract 7) none 10 true) =
        (demoState, [])) :=
  ⟨⟨by decide,
    c4_unauthorized_first.1 demoState (Address.account 2) none 10 true [] (by decide)⟩,
   ⟨by decide,
    c4_unauthorized_first.2 demoState (Address.contract 7) none 10 true [] (by decide)⟩⟩

/-- A `confirmPayment` parameter asserting a wrong paid amount. -/
def demoBadConfirmParam : ConfirmParam :=
  { milestone_id := 0, paid_amount_minor := 999, plt_tx_hash := demoTx }

/-- A second `requestRelease` parameter with a different digest. -/
def demoRequestParam2 : RequestParam := { milestone_id := 0, work_hash := [99] }

/-- C5: with a succeeding event append, `confirmPayment` succeeds exactly
when the sender is the client, the id is in range, the milestone is
requested and not released, and the asserted amount equals the configured
amount (the iff is stated under invariant 2, without which the work-hash
read would trap instead of failing); on success it sets `released`, stores
the payment reference and the block time as `attested_at_ms`, and the
emitted event carries the digest stored at `requestRelease`; a wrong
amount yields `AmountMismatch` with the state untouched. -/
theorem c5_confirm_payment_correct :
    (∀ st a p now,
      (∀ m ∈ st.milestones, m.requested = true → m.work_hash.isSome = true) →
      ((∃ st' ev, confirm_payment st (Address.account a) (some p) now true =
          Outcome.ok st' ev) ↔
        (a = st.client ∧ ∃ ms, st.milestones.get? p.milestone_id = some ms ∧
          ms.requested = true ∧ ms.released = false ∧
          p.paid_amount_minor = ms.amount_minor))) ∧
    (∀ st sender p now st' ev,
      confirm_payment st sender (some p) now true = Outcome.ok st' ev →
      ∃ ms ms', st.milestones.get? p.milestone_id = some ms ∧
        st'.milestones.get? p.milestone_id = some ms' ∧
        ms'.released = true ∧ ms'.plt_tx_hash = some p.plt_tx_hash ∧
        ms'.attested_at_ms = some now ∧
        ms.work_hash = some ev.work_hash ∧
        ev.plt_tx_hash = p.plt_tx_hash ∧ ev.amount_minor = ms.amount_minor ∧
        ev.milestone_id = p.milestone_id ∧ ev.project_id = st.project_id ∧
        ev.block_time_ms = now) ∧
    (∀ st a p now logOk ms,
      a = st.client → st.milestones.get? p.milestone_id = some ms →
      ms.requested = true → ms.released = false →
      p.paid_amount_minor ≠ ms.amount_minor →
      confirm_payment st (Address.account a) (some p) now logOk =
        Outcome.err ContractError.AmountMismatch st) := by
  refine ⟨?_, ?_, ?_⟩
  · intro st a p now hinv
    constructor
    · rintro ⟨st', ev, hok⟩
      rcases confirm_payment_ok st (Address.account a) (some p) now true st' ev hok with
        ⟨a1, p1, ms, wh, hsend, ha1, hparam, hms, hreq, hrel, hamt, hwh, _, hst', hev⟩
      have haa : a = a1 := Address.account.inj hsend
      have hpp : p = p1 := Option.some.inj hparam
      subst haa
      subst hpp
      exact ⟨ha1, ms, hms, hreq, hrel, hamt⟩
    · rintro ⟨ha, ms, hms, hreq, hrel, hamt⟩
      have hsome := hinv ms (list_get_mem _ _ _ hms) hreq
      rcases Option.isSome_iff_exists.mp hsome with ⟨wh, hwh⟩
      have hb : confirm_payment st (Address.account a) (some p) now true =
          Outcome.ok
            { st with milestones :=
                st.milestones.set p.milestone_id (applyConfirm ms p.plt_tx_hash now) }
            { project_id := st.project_id, milestone_id := p.milestone_id,
              work_hash := wh, plt_tx_hash := p.plt_tx_hash,
              amount_minor := ms.amount_minor, block_time_ms := now } := by
        simp only [confirm_payment]
        rw [if_pos ha]
        simp only [hms]
        rw [if_pos hreq, if_neg (bool_ne_true hrel), if_pos hamt]
        simp only [hwh]
        rw [if_pos trivial]
      exact ⟨_, _, hb⟩
  · intro st sender p now st' ev hok
    rcases confirm_payment_ok st sender (some p) now true st' ev hok with
      ⟨a1, p1, ms, wh, hsend, ha1, hparam, hms, hreq, hrel, hamt, hwh, _, hst', hev⟩
    have hpp : p = p1 := Option.some.inj hparam
    subst hpp
    refine ⟨ms, applyConfirm ms p.plt_tx_hash now, hms, ?_, rfl, rfl, rfl,
      ?_, ?_, ?_, ?_, ?_, ?_⟩
    · rw [hst']
      exact list_get_set_self _ _ _ (list_get_lt_length _ _ _ hms)
    · rw [hev]; exact hwh
    · rw [hev]
    · rw [hev]
    · rw [hev]
    · rw [hev]
    · rw [hev]
  · intro st a p now logOk ms ha hms hreq hrel hne
    simp only [confirm_payment]
    rw [if_pos ha]
    simp only [hms]
    rw [if_pos hreq, if_neg (bool_ne_true hrel), if_neg hne]

/-- Witness for C5 at the worked example: the success iff, the success
effects of the sample confirmation, and an `AmountMismatch` on a wrong
asserted amount. -/
theorem c5_confirm_payment_correct_witness :
    ((∃ st' ev, confirm_payment demoRequestedState (Address.account 1)
        (some demoConfirmParam) 20 true = Outcome.ok st' ev) ↔
      (1 = demoRequestedState.client ∧ ∃ ms,
        demoRequestedState.milestones.get? demoConfirmParam.milestone_id = some ms ∧
        ms.requested = true ∧ ms.released = false ∧
        demoConfirmParam.paid_amount_minor = ms.amount_minor)) ∧
    (∃ ms ms',
      demoRequestedState.milestones.get? demoConfirmParam.milestone_id = some ms ∧
      demoReleasedState.milestones.get? demoConfirmParam.milestone_id = some ms' ∧
      ms'.released = true ∧ ms'.plt_tx_hash = some demoConfirmParam.plt_tx_hash ∧
      ms'.attested_at_ms = some 20 ∧
      ms.work_hash = some demoAttestedEvent.work_hash ∧
      demoAttestedEvent.plt_tx_hash = demoConfirmParam.plt_tx_hash ∧
      demoAttestedEvent.amount_minor = ms.amount_minor ∧
      demoAttestedEvent.milestone_id = demoConfirmParam.milestone_id ∧
      demoAttestedEvent.project_id = demoRequestedState.project_id ∧
      demoAttestedEvent.block_time_ms = 20) ∧
    confirm_payment demoRequestedState (Address.account 1)
      (some demoBadConfirmParam) 20 true =
      Outcome.err ContractError.AmountMismatch demoRequestedState :=
  ⟨c5_confirm_payment_correct.1 demoRequestedState 1 demoConfirmParam 20 (by decide),
   c5_confirm_payment_correct.2.1 demoRequestedState (Address.account 1)
     demoConfirmParam 20 demoReleasedState demoAttestedEvent (by decide),
   c5_confirm_payment_correct.2.2 demoRequestedState 1 demoBadConfirmParam 20 true
     demoRequestedMs (by decide) (by decide) (by decide) (by decide) (by decide)⟩

/-- C6: `requestRelease` succeeds at most once per milestone: a successful
call marks the milestone requested with the digest and block time stored;
any `requestRelease` from the oracle on an already-requested milestone
fails with `AlreadyRequested` or `AlreadyReleased` and commits nothing;
and no call whatsoever resets the requested flag or alters the stored
digest and timestamp. -/
theorem c6_request_release_at_most_once :
    (∀ st sender p now logOk st' ev,
      request_release st sender (some p) now logOk = Outcome.ok st' ev →
      ∃ ms ms', st.milestones.get? p.milestone_id = some ms ∧
        st'.milestones.get? p.milestone_id = some ms' ∧ ms'.requested = true ∧
        ms'.work_hash = some p.work_hash ∧ ms'.requested_at_ms = some now) ∧
    (∀ st p now logOk ms,
      st.milestones.get? p.milestone_id = some ms → ms.requested = true →
      (request_release st (Address.account st.oracle) (some p) now logOk =
         Outcome.err ContractError.AlreadyRequested st ∨
       request_release st (Address.account st.oracle) (some p) now logOk =
         Outcome.err ContractError.AlreadyReleased st) ∧
      stepState st
        (Call.requestRelease (Address.account st.oracle) (some p) now logOk) = st) ∧
    (∀ st c i ms, st.milestones.get? i = some ms → ms.requested = true →
      ∃ ms', (stepState st c).milestones.get? i = some ms' ∧ ms'.requested = true ∧
        ms'.work_hash = ms.work_hash ∧
        ms'.requested_at_ms = ms.requested_at_ms) := by
  refine ⟨?_, ?_, ?_⟩
  · intro st sender p now logOk st' ev hok
    rcases request_release_ok st sender (some p) now logOk st' ev hok with
      ⟨a1, p1, ms, hsend, ha1, hparam, hms, hrel, hreq, _, hst', hev⟩
    have hpp : p = p1 := Option.some.inj hparam
    subst hpp
    refine ⟨ms, applyRequest ms p.work_hash now, hms, ?_, rfl, rfl, rfl⟩
    rw [hst']
    exact list_get_set_self _ _ _ (list_get_lt_length _ _ _ hms)
  · intro st p now logOk ms hms hreq
    cases hrelb : ms.released with
    | true =>
      have hb : request_release st (Address.account st.oracle) (some p) now logOk =
          Outcome.err ContractError.AlreadyReleased st := by
        simp only [request_release]
        rw [if_pos trivial]
        simp only [hms]
        rw [if_pos hrelb]
      exact ⟨Or.inr hb, by simp only [stepState, step, hb, commit]⟩
    | false =>
      have hb : request_release st (Address.account st.oracle) (some p) now logOk =
          Outcome.err ContractError.AlreadyRequested st := by
        simp only [request_release]
        rw [if_pos trivial]
        simp only [hms]
        rw [if_neg (bool_ne_true hrelb), if_pos hreq]
      exact ⟨Or.inl hb, by simp only [stepState, step, hb, commit]⟩
  · intro st c i ms hms hreq
    rcases stepState_cases st c with hc | ⟨j, wh2, msj, hmsj, hrelj, hreqj, hc⟩ |
      ⟨j, tx2, msj, hmsj, hreqj, hrelj, hc⟩
    · rw [hc]; exact ⟨ms, hms, hreq, rfl, rfl⟩
    · by_cases hji : j = i
      · subst hji
        rw [hms] at hmsj
        have hmm : ms = msj := Option.some.inj hmsj
        rw [← hmm] at hreqj
        exact absurd hreq (bool_ne_true hreqj)
      · rw [hc]
        exact ⟨ms, (list_get_set_other st.milestones j i _ hji).trans hms, hreq, rfl, rfl⟩
    · by_cases hji : j = i
      · subst hji
        rw [hms] at hmsj
        have hmm : ms = msj := Option.some.inj hmsj
        subst hmm
        rw [hc]
        refine ⟨applyConfirm ms tx2 (timeOf c), ?_, hreq, rfl, rfl⟩
        exact list_get_set_self _ _ _ (list_get_lt_length _ _ _ hms)
      · rw [hc]
        exact ⟨ms, (list_get_set_other st.milestones j i _ hji).trans hms, hreq, rfl, rfl⟩

/-- Witness for C6 at the worked example: the first request succeeds and
stores digest and timestamp; a repeat from the oracle with a fresh digest
fails with `AlreadyRequested` and commits nothing; and the confirming call
preserves the stored request fields. -/
theorem c6_request_release_at_most_once_witness :
    (∃ ms ms', demoState.milestones.get? demoRequestParam.milestone_id = some ms ∧
      demoRequestedState.milestones.get? demoRequestParam.milestone_id = some ms' ∧
      ms'.requested = true ∧ ms'.work_hash = some demoRequestParam.work_hash ∧
      ms'.requested_at_ms = some 10) ∧
    ((request_release demoRequestedState
        (Address.account demoRequestedState.oracle) (some demoRequestParam2) 30 true =
        Outcome.err ContractError.AlreadyRequested demoRequestedState ∨
      request_release demoRequestedState
        (Address.account demoRequestedState.oracle) (some demoRequestParam2) 30 true =
        Outcome.err ContractError.AlreadyReleased demoRequestedState) ∧
      stepState demoRequestedState
        (Call.requestRelease (Address.account demoRequestedState.oracle)
          (some demoRequestParam2) 30 true) = demoRequestedState) ∧
    (∃ ms', (stepState demoRequestedState demoCallC).milestones.get? 0 = some ms' ∧
      ms'.requested = true ∧ ms'.work_hash = demoRequestedMs.work_hash ∧
      ms'.requested_at_ms = demoRequestedMs.requested_at_ms) :=
  ⟨c6_request_release_at_most_once.1 demoState (Address.account 3) demoRequestParam
     10 true demoRequestedState demoReleaseEvent (by decide),
   c6_request_release_at_most_once.2.1 demoRequestedState demoRequestParam2 30 true
     demoRequestedMs (by decide) (by decide),
   c6_request_release_at_most_once.2.2 demoRequestedState demoCallC 0
     demoRequestedMs (by decide) (by decide)⟩

/-- C7: in every state reachable under monotonically non-decreasing block
times, a released milestone has a stored payment reference and an
attestation timestamp at least its request timestamp. -/
theorem c7_released_payment_fields (st : State) (t : Timestamp) (m : Milestone)
    (h : ReachableT st t) (hm : m ∈ st.milestones) (hrel : m.released = true) :
    m.plt_tx_hash.isSome = true ∧
    ∃ r a, m.requested_at_ms = some r ∧ m.attested_at_ms = some a ∧ r ≤ a :=
  ((reachableT_invT st t h) m hm).2 hrel

/-- Witness for C7 at the released milestone of the worked example's
final state, reached by a time-monotone trace (times 10 then 20). -/
theorem c7_released_payment_fields_witness :
    demoReleasedMs ∈ demoReleasedState.milestones ∧ demoReleasedMs.released = true ∧
    (demoReleasedMs.plt_tx_hash.isSome = true ∧
     ∃ r a, demoReleasedMs.requested_at_ms = some r ∧
       demoReleasedMs.attested_at_ms = some a ∧ r ≤ a) :=
  ⟨by decide, by decide,
   c7_released_payment_fields demoReleasedState (timeOf demoCallC) demoReleasedMs
     (ReachableT.next demoRequestedState (timeOf demoCallR) demoCallC
       (ReachableT.next demoState 0 demoCallR
         (ReachableT.base (some demoParams) demoState rfl) (by decide))
       (by decide))
     (by decide) (by decide)⟩

theorem list_get_map {α β : Type} (f : α → β) (l : List α) (i : Nat) :
    (l.map f).get? i = (l.get? i).map f := by
  induction l generalizing i with
  | nil => rfl
  | cons x xs ih =>
    cases i with
    | zero => rfl
    | succ n => exact ih n

/-- Initialization parameters with an empty amount list. -/
def demoEmptyParams : InitParams :=
  { project_id := "wlog-local"
    client := 1
    freelancer := 2
    oracle := 3
    amounts := []
    plt_decimals := 6 }

/-- C8: `init` fails with `ParseError` when the parameter cannot be
decoded or the amount list is empty; on success the registry has one
milestone per amount, the i-th carrying the i-th amount with `requested`
and `released` false and every optional field empty, and the supplied
identities, project id and display decimals. -/
theorem c8_init_correct :
    (init none = Except.error ContractError.ParseError) ∧
    (∀ p : InitParams, p.amounts = [] →
      init (some p) = Except.error ContractError.ParseError) ∧
    (∀ p : InitParams, p.amounts ≠ [] → ∃ st, init (some p) = Except.ok st ∧
      st.milestones.length = p.amounts.length ∧
      (∀ i a, p.amounts.get? i = some a → st.milestones.get? i = some
        { amount_minor := a, requested := false, released := false,
          work_hash := none, plt_tx_hash := none, requested_at_ms := none,
          attested_at_ms := none }) ∧
      st.project_id = p.project_id ∧ st.client = p.client ∧
      st.freelancer = p.freelancer ∧ st.oracle = p.oracle ∧
      st.plt_decimals = p.plt_decimals) := by
  refine ⟨rfl, ?_, ?_⟩
  · intro p hp
    simp only [init]
    rw [if_pos (by rw [hp]; rfl)]
  · intro p hp
    have hne : p.amounts.isEmpty = false := by
      cases hA : p.amounts with
      | nil => exact absurd hA hp
      | cons x xs => rfl
    refine ⟨{ project_id := p.project_id, client := p.client,
              freelancer := p.freelancer, oracle := p.oracle,
              plt_decimals := p.plt_decimals,
              milestones := p.amounts.map mkMilestone },
            ?_, ?_, ?_, rfl, rfl, rfl, rfl, rfl⟩
    · simp only [init]
      rw [if_neg (bool_ne_true hne)]
    · exact List.length_map _ _
    · intro i a hia
      rw [list_get_map, hia]
      rfl

/-- Witness for C8: an undeserializable parameter, an empty amount list,
and the two-milestone worked example. -/
theorem c8_init_correct_witness :
    init none = Except.error ContractError.ParseError ∧
    init (some demoEmptyParams) = Except.error ContractError.ParseError ∧
    (∃ st, init (some demoParams) = Except.ok st ∧
      st.milestones.length = demoParams.amounts.length ∧
      (∀ i a, demoParams.amounts.get? i = some a → st.milestones.get? i = some
        { amount_minor := a, requested := false, released := false,
          work_hash := none, plt_tx_hash := none, requested_at_ms := none,
          attested_at_ms := none }) ∧
      st.project_id = demoParams.project_id ∧ st.client = demoParams.client ∧
      st.freelancer = demoParams.freelancer ∧ st.oracle = demoParams.oracle ∧
      st.plt_decimals = demoParams.plt_decimals) :=
  ⟨c8_init_correct.1,
   c8_init_correct.2.1 demoEmptyParams (by decide),
   c8_init_correct.2.2 demoParams (by decide)⟩

/-- C9: no call — successful or failing — changes the project id, the
three role identities, the display decimals, the milestone count and
order, or any milestone's amount; a successful `requestRelease` changes
only the targeted milestone's request fields and a successful
`confirmPayment` only its release fields, leaving every other milestone
unchanged. -/
theorem c9_frame_conditions :
    (∀ st c,
      (stepState st c).project_id = st.project_id ∧
      (stepState st c).client = st.client ∧
      (stepState st c).freelancer = st.freelancer ∧
      (stepState st c).oracle = st.oracle ∧
      (stepState st c).plt_decimals = st.plt_decimals ∧
      (stepState st c).milestones.length = st.milestones.length ∧
      (∀ i, ((stepState st c).milestones.get? i).map Milestone.amount_minor =
        (st.milestones.get? i).map Milestone.amount_minor)) ∧
    (∀ st sender p now logOk st' ev,
      request_release st sender (some p) now logOk = Outcome.ok st' ev →
      (∀ j, j ≠ p.milestone_id → st'.milestones.get? j = st.milestones.get? j) ∧
      ∃ ms ms', st.milestones.get? p.milestone_id = some ms ∧
        st'.milestones.get? p.milestone_id = some ms' ∧
        ms'.amount_minor = ms.amount_minor ∧ ms'.released = ms.released ∧
        ms'.plt_tx_hash = ms.plt_tx_hash ∧
        ms'.attested_at_ms = ms.attested_at_ms) ∧
    (∀ st sender p now logOk st' ev,
      confirm_payment st sender (some p) now logOk = Outcome.ok st' ev →
      (∀ j, j ≠ p.milestone_id → st'.milestones.get? j = st.milestones.get? j) ∧
      ∃ ms ms', st.milestones.get? p.milestone_id = some ms ∧
        st'.milestones.get? p.milestone_id = some ms' ∧
        ms'.amount_minor = ms.amount_minor ∧ ms'.requested = ms.requested ∧
        ms'.work_hash = ms.work_hash ∧
        ms'.requested_at_ms = ms.requested_at_ms) := by
  refine ⟨?_, ?_, ?_⟩
  · intro st c
    rcases stepState_cases st c with hc | ⟨j, wh, ms, hms, hrel, hreq, hc⟩ |
      ⟨j, tx, ms, hms, hreq, hrel, hc⟩
    · rw [hc]; exact ⟨rfl, rfl, rfl, rfl, rfl, rfl, fun i => rfl⟩
    · rw [hc]
      refine ⟨rfl, rfl, rfl, rfl, rfl, List.length_set _ _ _, ?_⟩
      intro i
      by_cases hij : j = i
      · subst hij
        rw [show ({ st with milestones :=
            st.milestones.set j (applyRequest ms wh (timeOf c)) } : State).milestones =
            st.milestones.set j (applyRequest ms wh (timeOf c)) from rfl,
          list_get_set_self _ _ _ (list_get_lt_length _ _ _ hms), hms]
        rfl
      · exact congrArg _ (list_get_set_other st.milestones j i _ hij)
    · rw [hc]
      refine ⟨rfl, rfl, rfl, rfl, rfl, List.length_set _ _ _, ?_⟩
      intro i
      by_cases hij : j = i
      · subst hij
        rw [show ({ st with milestones :=
            st.milestones.set j (applyConfirm ms tx (timeOf c)) } : State).milestones =
            st.milestones.set j (applyConfirm ms tx (timeOf c)) from rfl,
          list_get_set_self _ _ _ (list_get_lt_length _ _ _ hms), hms]
        rfl
      · exact congrArg _ (list_get_set_other st.milestones j i _ hij)
  · intro st sender p now logOk st' ev hok
    rcases request_release_ok st sender (some p) now logOk st' ev hok with
      ⟨a1, p1, ms, _, _, hparam, hms, _, _, _, hst', _⟩
    have hpp : p = p1 := Option.some.inj hparam
    subst hpp
    constructor
    · intro j hj
      rw [hst']
      exact list_get_set_other st.milestones p.milestone_id j _ (Ne.symm hj)
    · refine ⟨ms, applyRequest ms p.work_hash now, hms, ?_, rfl, rfl, rfl, rfl⟩
      rw [hst']
      exact list_get_set_self _ _ _ (list_get_lt_length _ _ _ hms)
  · intro st sender p now logOk st' ev hok
    rcases confirm_payment_ok st sender (some p) now logOk st' ev hok with
      ⟨a1, p1, ms, wh, _, _, hparam, hms, _, _, _, _, _, hst', _⟩
    have hpp : p = p1 := Option.some.inj hparam
    subst hpp
    constructor
    · intro j hj
      rw [hst']
      exact list_get_set_other st.milestones p.milestone_id j _ (Ne.symm hj)
    · refine ⟨ms, applyConfirm ms p.plt_tx_hash now, hms, ?_, rfl, rfl, rfl, rfl⟩
      rw [hst']
      exact list_get_set_self _ _ _ (list_get_lt_length _ _ _ hms)

/-- Witness for C9 at the worked example's calls. -/
theorem c9_frame_conditions_witness :
    ((stepState demoState demoCallR).project_id = demoState.project_id ∧
     (stepState demoState demoCallR).client = demoState.client ∧
     (stepState demoState demoCallR).freelancer = demoState.freelancer ∧
     (stepState demoState demoCallR).oracle = demoState.oracle ∧
     (stepState demoState demoCallR).plt_decimals = demoState.plt_decimals ∧
     (stepState demoState demoCallR).milestones.length =
       demoState.milestones.length ∧
     (∀ i, ((stepState demoState demoCallR).milestones.get? i).map
         Milestone.amount_minor =
       (demoState.milestones.get? i).map Milestone.amount_minor)) ∧
    ((∀ j, j ≠ demoRequestParam.milestone_id →
        demoRequestedState.milestones.get? j = demoState.milestones.get? j) ∧
     ∃ ms ms', demoState.milestones.get? demoRequestParam.milestone_id = some ms ∧
       demoRequestedState.milestones.get? demoRequestParam.milestone_id = some ms' ∧
       ms'.amount_minor = ms.amount_minor ∧ ms'.released = ms.released ∧
       ms'.plt_tx_hash = ms.plt_tx_hash ∧
       ms'.attested_at_ms = ms.attested_at_ms) ∧
    ((∀ j, j ≠ demoConfirmParam.milestone_id →
        demoReleasedState.milestones.get? j =
          demoRequestedState.milestones.get? j) ∧
     ∃ ms ms',
       demoRequestedState.milestones.get? demoConfirmParam.milestone_id = some ms ∧
       demoReleasedState.milestones.get? demoConfirmParam.milestone_id = some ms' ∧
       ms'.amount_minor = ms.amount_minor ∧ ms'.requested = ms.requested ∧
       ms'.work_hash = ms.work_hash ∧
       ms'.requested_at_ms = ms.requested_at_ms) :=
  ⟨c9_frame_conditions.1 demoState demoCallR,
   c9_frame_conditions.2.1 demoState (Address.account 3) demoRequestParam 10 true
     demoRequestedState demoReleaseEvent (by decide),
   c9_frame_conditions.2.2 demoRequestedState (Address.account 1) demoConfirmParam
     20 true demoReleasedState demoAttestedEvent (by decide)⟩

/-- C10: `viewMilestone` with a well-formed id at or beyond the milestone
count returns an empty result (`Ok none`), never an error; with an
in-range id it returns a snapshot copying the stored milestone's fields
verbatim; it takes no mutable state handle and checks no sender. -/
theorem c10_view_milestone (st : State) (p : ViewParam) :
    (st.milestones.length ≤ p.milestone_id →
      view_milestone st (some p) = Except.ok none) ∧
    (∀ m, st.milestones.get? p.milestone_id = some m →
      view_milestone st (some p) = Except.ok (some
        { amount_minor := m.amount_minor, requested := m.requested,
          released := m.released, work_hash := m.work_hash,
          plt_tx_hash := m.plt_tx_hash, requested_at_ms := m.requested_at_ms,
          attested_at_ms := m.attested_at_ms })) := by
  constructor
  · intro h
    simp only [view_milestone]
    rw [list_get_none _ _ h]
    rfl
  · intro m hm
    simp only [view_milestone]
    rw [hm]
    rfl

/-- Witness for C10: an out-of-range query on the two-milestone registry
returns `Ok none`; milestone 0 is returned field-for-field. -/
theorem c10_view_milestone_witness :
    (demoState.milestones.length ≤ 5 ∧
      view_milestone demoState (some { milestone_id := 5 }) = Except.ok none) ∧
    view_milestone demoState (some { milestone_id := 0 }) = Except.ok (some
      { amount_minor := 100000000, requested := false, released := false,
        work_hash := none, plt_tx_hash := none, requested_at_ms := none,
        attested_at_ms := none }) :=
  ⟨⟨by decide, (c10_view_milestone demoState { milestone_id := 5 }).1 (by decide)⟩,
   (c10_view_milestone demoState { milestone_id := 0 }).2
     (mkMilestone 100000000) (by decide)⟩

end PayLog
